import Mathlib

/-!
Verification of `circuit-breaker-with-go` (src/main.go, src/main_test.go).

The repository wires a circuit breaker (the external `gobreaker` library,
configured in `main.go`) into an HTTP handler that retries a downstream call
up to 5 times with exponential backoff and full jitter, exporting Prometheus
counters as a side effect.

The shallow embedding below mirrors:
  * `exponentialBackoff` (src/main.go) over ℚ.  `float64` arithmetic of the
    source is modelled exactly by rationals: `min`/`max` are the integers
    1e9 / 3e10, `math.Pow(2, attempt)` is `(2 : ℚ) ^ attempt` (exact in
    float64 until overflow, where the float result +Inf is clamped to `max`,
    which coincides with the rational `min (minDelay * 2^attempt) maxDelay`),
    `rand.Float64()` is a parameter `r` with `0 ≤ r < 1`, and the final
    `time.Duration(jitter)` conversion is `Int.floor`.
  * the `ReadyToTrip` and `OnStateChange` callbacks from `main.go`'s
    `gobreaker.Settings`, with the Prometheus counter vector as an explicit
    `Metrics` state threaded through them.
  * the circuit breaker itself, which lives in the external `gobreaker`
    dependency (not under src/) and is therefore modelled from the spec
    (§3, §4.1), restricted to sequential execution.
  * the retry loop and response mapping of the `/api` handler in `main.go`.
-/

/-! ## Backoff policy (src/main.go, `exponentialBackoff`) -/

/-- The local `min := float64(time.Second)` of src/main.go, in nanoseconds. -/
def minDelay : ℚ := 1000000000

/-- The local `max := float64(30 * time.Second)` of src/main.go, in nanoseconds. -/
def maxDelay : ℚ := 30000000000

/-- Function `exponentialBackoff` from src/main.go.  `attempt` is the loop index
(`int` in Go, so ℤ here), `r` models the `rand.Float64()` draw in `[0,1)`.
Returns the nanosecond count of the `time.Duration` result
(`time.Duration(jitter)` truncates the float toward zero; for the
non-negative values arising here that is `Int.floor`). -/
def exponentialBackoff (attempt : ℤ) (r : ℚ) : ℤ :=
  let backoff := minDelay * (2 : ℚ) ^ attempt
  let backoff := if maxDelay < backoff then maxDelay else backoff
  Int.floor (r * backoff)

/-- The spec's "computed delay": `min(minDelay * 2^attempt, maxDelay)`. -/
def computedDelay (attempt : ℤ) : ℚ :=
  min (minDelay * (2 : ℚ) ^ attempt) maxDelay

theorem clamp_eq_computedDelay (attempt : ℤ) :
    (if maxDelay < minDelay * (2 : ℚ) ^ attempt then maxDelay
      else minDelay * (2 : ℚ) ^ attempt) = computedDelay attempt := by
  unfold computedDelay
  rcases lt_or_le maxDelay (minDelay * (2 : ℚ) ^ attempt) with h | h
  · simp [h, min_eq_right h.le]
  · rw [if_neg (not_lt.mpr h), min_eq_left h]

/-- C4: for every non-negative `attempt` (including ones where `2^attempt`
would overflow a fixed-width type — the rational model has no overflow and
the float64 overflow to +Inf is clamped to `maxDelay`, matching
`computedDelay`), the returned duration is in `[0, computedDelay attempt]`
with `computedDelay attempt = min (minDelay * 2^attempt) maxDelay`, and it is
not stuck at zero: the draw `r = 1/2` already yields a positive duration. -/
theorem exponentialBackoff_range (attempt : ℤ) (hatt : 0 ≤ attempt)
    (r : ℚ) (hr0 : 0 ≤ r) (hr1 : r < 1) :
    0 ≤ exponentialBackoff attempt r ∧
    (exponentialBackoff attempt r : ℚ) ≤ computedDelay attempt ∧
    computedDelay attempt = min (minDelay * (2 : ℚ) ^ attempt) maxDelay ∧
    0 < exponentialBackoff attempt (1 / 2) := by
  have hp1 : (1 : ℚ) ≤ (2 : ℚ) ^ attempt :=
    one_le_zpow₀ (by norm_num) hatt
  have hcd : minDelay ≤ computedDelay attempt := by
    unfold computedDelay
    refine le_min (le_mul_of_one_le_right (by norm_num [minDelay]) hp1) ?_
    norm_num [minDelay, maxDelay]
  have hcd0 : (0 : ℚ) < computedDelay attempt :=
    lt_of_lt_of_le (by norm_num [minDelay]) hcd
  have hunfold : ∀ s : ℚ, exponentialBackoff attempt s =
      Int.floor (s * computedDelay attempt) := by
    intro s
    simp only [exponentialBackoff]
    rw [clamp_eq_computedDelay]
  refine ⟨?_, ?_, rfl, ?_⟩
  · rw [hunfold]
    exact Int.le_floor.mpr (by push_cast; positivity)
  · rw [hunfold]
    exact le_trans (Int.floor_le _) (mul_le_of_le_one_left hcd0.le hr1.le)
  · rw [hunfold]
    refine lt_of_lt_of_le Int.zero_lt_one (Int.le_floor.mpr ?_)
    have : (2 : ℚ) ≤ computedDelay attempt := by
      refine le_trans ?_ hcd; norm_num [minDelay]
    push_cast
    linarith

/-- C4 witness at `attempt = 3`, `r = 1/2`. -/
theorem exponentialBackoff_range_witness :
    0 ≤ exponentialBackoff 3 (1 / 2) ∧
    (exponentialBackoff 3 (1 / 2) : ℚ) ≤ computedDelay 3 ∧
    computedDelay 3 = min (minDelay * (2 : ℚ) ^ (3 : ℤ)) maxDelay ∧
    0 < exponentialBackoff 3 (1 / 2) :=
  exponentialBackoff_range 3 (by norm_num) (1 / 2) (by norm_num) (by norm_num)

/-- C10: `exponentialBackoff` is total over all integer attempts: for a
negative `attempt` the exponential is a proper fraction of `minDelay`, the
cap never engages, and the result lies in `[0, minDelay)` — never negative,
never an error. -/
theorem exponentialBackoff_total_neg (attempt : ℤ) (hatt : attempt < 0)
    (r : ℚ) (hr0 : 0 ≤ r) (hr1 : r < 1) :
    0 ≤ exponentialBackoff attempt r ∧
    (exponentialBackoff attempt r : ℚ) < minDelay := by
  have hp0 : (0 : ℚ) < (2 : ℚ) ^ attempt := zpow_pos (by norm_num) attempt
  have hp2 : (2 : ℚ) ^ attempt ≤ 2⁻¹ := by
    have h := zpow_le_zpow_right₀ (a := (2 : ℚ)) (by norm_num)
      (show attempt ≤ -1 by omega)
    rwa [zpow_neg, zpow_one] at h
  have hsmall : minDelay * (2 : ℚ) ^ attempt ≤ 500000000 := by
    have := mul_le_mul_of_nonneg_left hp2 (show (0 : ℚ) ≤ minDelay by norm_num [minDelay])
    calc minDelay * (2 : ℚ) ^ attempt ≤ minDelay * 2⁻¹ := this
    _ = 500000000 := by norm_num [minDelay]
  have hnoclamp : ¬ maxDelay < minDelay * (2 : ℚ) ^ attempt := by
    refine not_lt.mpr (le_trans hsmall ?_); norm_num [maxDelay]
  have hunfold : exponentialBackoff attempt r =
      Int.floor (r * (minDelay * (2 : ℚ) ^ attempt)) := by
    simp only [exponentialBackoff]
    rw [if_neg hnoclamp]
  have hb0 : (0 : ℚ) < minDelay * (2 : ℚ) ^ attempt := by
    have : (0 : ℚ) < minDelay := by norm_num [minDelay]
    positivity
  constructor
  · rw [hunfold]
    exact Int.le_floor.mpr (by push_cast; positivity)
  · rw [hunfold]
    refine lt_of_le_of_lt (Int.floor_le _) ?_
    have h1 : r * (minDelay * (2 : ℚ) ^ attempt) ≤ minDelay * (2 : ℚ) ^ attempt :=
      mul_le_of_le_one_left hb0.le hr1.le
    refine lt_of_le_of_lt (le_trans h1 hsmall) ?_
    norm_num [minDelay]

/-- C10 witness at `attempt = -2`, `r = 1/3`. -/
theorem exponentialBackoff_total_neg_witness :
    0 ≤ exponentialBackoff (-2) (1 / 3) ∧
    (exponentialBackoff (-2) (1 / 3) : ℚ) < minDelay :=
  exponentialBackoff_total_neg (-2) (by norm_num) (1 / 3) (by norm_num) (by norm_num)

/-! ## Prometheus metrics state (src/main.go, `requestCount` counter vector)

The `requestCount` Prometheus `CounterVec` is keyed by a `state` label.  The
labels actually used by `main.go` are `"failure"`, `"success"` and the
breaker-state names emitted by `OnStateChange` (`gobreaker.State.String()`:
`"closed"`, `"open"`, `"half-open"`); we keep one field per label. -/

structure Metrics where
  failure : ℕ
  success : ℕ
  labelClosed : ℕ
  labelOpen : ℕ
  labelHalfOpen : ℕ
deriving DecidableEq, Repr

/-- The all-zero counter vector (fresh Prometheus registry). -/
def Metrics.zero : Metrics := ⟨0, 0, 0, 0, 0⟩

/-! ## Circuit breaker (external `gobreaker` dependency, modelled from spec) -/

/-- Breaker states (spec §3: enum Closed, Open, HalfOpen).  `open` is a Lean
keyword, hence `opened`. -/
inductive BState where
  | closed
  | opened
  | halfOpen
deriving DecidableEq, Repr

/-- Modelled from the spec (§3 Counters): the gobreaker `Counts` struct is
not under src/; fields follow the spec's counter list (requests, total and
consecutive successes/failures). -/
structure Counts where
  requests : ℕ
  totalSuccesses : ℕ
  totalFailures : ℕ
  consecutiveSuccesses : ℕ
  consecutiveFailures : ℕ
deriving DecidableEq, Repr

/-- Modelled from the spec (§3): Counters "reset to all-zero". -/
def Counts.clear : Counts := ⟨0, 0, 0, 0, 0⟩

/-- Modelled from the spec (§3): `requests` increases on each admitted call. -/
def Counts.onRequest (c : Counts) : Counts :=
  { c with requests := c.requests + 1 }

/-- Modelled from the spec (§3): on a success outcome the totals and the
success streak increase and the failure streak resets to 0. -/
def Counts.onSuccess (c : Counts) : Counts :=
  { c with
    totalSuccesses := c.totalSuccesses + 1
    consecutiveSuccesses := c.consecutiveSuccesses + 1
    consecutiveFailures := 0 }

/-- Modelled from the spec (§3): on a failure outcome the totals and the
failure streak increase and the success streak resets to 0. -/
def Counts.onFailure (c : Counts) : Counts :=
  { c with
    totalFailures := c.totalFailures + 1
    consecutiveFailures := c.consecutiveFailures + 1
    consecutiveSuccesses := 0 }

/-- Setting `MaxRequests: 5` from the `gobreaker.Settings` literal in src/main.go
(spec §3: `maxHalfOpenRequests`, the Half-Open admission cap). -/
def MaxRequests : ℕ := 5

/-- Setting `Interval: 60 * time.Second` from src/main.go, in seconds
(spec §3: `closedResetInterval`). -/
def ResetInterval : ℕ := 60

/-- Setting `Timeout: 30 * time.Second` from src/main.go, in seconds
(spec §3: `openTimeout`). -/
def Timeout : ℕ := 30

/-- Callback `ReadyToTrip` from the `gobreaker.Settings` literal in src/main.go: it
increments the Prometheus `"failure"` counter as a side effect and returns
whether `Counts.ConsecutiveFailures > 3`. -/
def ReadyToTrip (counts : Counts) (m : Metrics) : Bool × Metrics :=
  (decide (3 < counts.consecutiveFailures), { m with failure := m.failure + 1 })

/-- Callback `OnStateChange` from the `gobreaker.Settings` literal in src/main.go: it
increments the Prometheus counter labelled with the name of the state the
breaker transitioned to (the `fmt.Printf` log line has no modelled effect). -/
def OnStateChange (tgt : BState) (m : Metrics) : Metrics :=
  match tgt with
  | .closed => { m with labelClosed := m.labelClosed + 1 }
  | .opened => { m with labelOpen := m.labelOpen + 1 }
  | .halfOpen => { m with labelHalfOpen := m.labelHalfOpen + 1 }

/-- Modelled from the spec (§3, §4.1): the gobreaker `CircuitBreaker` state
(not under src/), restricted to sequential execution, so the `generation`
token (which only invalidates outcomes of calls raced by a concurrent
transition) is omitted: in a sequential run the generation check always
passes.  Time is an abstract ℕ (seconds). -/
structure Breaker where
  state : BState
  counts : Counts
  expiry : ℕ
deriving DecidableEq, Repr

/-- Modelled from the spec (§3, §4.1): a freshly constructed breaker at time
`now`: Closed, zero counters, and the Closed-state rolling window expiring
after `ResetInterval`. -/
def Breaker.construct (now : ℕ) : Breaker :=
  ⟨.closed, Counts.clear, now + ResetInterval⟩

/-- Modelled from the spec (§3, §4.1): entering a new generation clears the
counters and schedules the next expiry from the new state: Closed uses the
rolling `ResetInterval`, Open uses `Timeout` (when Open should probe), Half-Open
has no expiry. -/
def Breaker.newGeneration (now : ℕ) (b : Breaker) : Breaker :=
  { b with
    counts := Counts.clear
    expiry := match b.state with
      | .closed => now + ResetInterval
      | .opened => now + Timeout
      | .halfOpen => 0 }

/-- Modelled from the spec (§4.1): a state transition clears counters, resets
expiry, and fires the `onStateChange` observer. -/
def Breaker.setState (tgt : BState) (now : ℕ) (b : Breaker) (m : Metrics) :
    Breaker × Metrics :=
  if b.state = tgt then (b, m)
  else
    let b1 := Breaker.newGeneration now { b with state := tgt }
    (b1, OnStateChange tgt m)

/-- Modelled from the spec (§4.1): lazily refresh the state at time `now`:
while Closed, an elapsed rolling interval resets counters with no
state-change event; while Open, an elapsed `expiry` transitions to Half-Open
(firing the state-change event) before the call is admitted as a probe. -/
def Breaker.currentState (now : ℕ) (b : Breaker) (m : Metrics) :
    Breaker × Metrics :=
  match b.state with
  | .closed => if b.expiry < now then (b.newGeneration now, m) else (b, m)
  | .opened => if b.expiry < now then b.setState .halfOpen now m else (b, m)
  | .halfOpen => (b, m)

/-- The failure kinds `Execute` can surface (spec §7): the two admission
rejections, and the operation's own failure carrying its message. -/
inductive ExecErr where
  | circuitOpen
  | tooManyRequests
  | opFailure (msg : String)
deriving DecidableEq, Repr

deriving instance DecidableEq for Except

/-- Result of one `Execute` call: the returned value or failure, whether the
operation was actually invoked, whether the `ReadyToTrip` predicate was
evaluated, and the updated breaker and metrics. -/
structure ExecResult where
  result : Except ExecErr ℕ
  invoked : Bool
  rttEval : Bool
  breaker : Breaker
  metrics : Metrics
deriving DecidableEq, Repr

/-- Modelled from the spec (§4.1): success handling.  Closed: count the
success.  Half-Open: count it and, once `consecutiveSuccesses` reaches the
`MaxRequests` cap, transition to Closed. -/
def Breaker.onSuccess (now : ℕ) (b : Breaker) (m : Metrics) :
    Breaker × Metrics :=
  match b.state with
  | .closed => ({ b with counts := b.counts.onSuccess }, m)
  | .halfOpen =>
    let c := b.counts.onSuccess
    let b1 := { b with counts := c }
    if MaxRequests ≤ c.consecutiveSuccesses then b1.setState .closed now m
    else (b1, m)
  | .opened => (b, m)

/-- Modelled from the spec (§4.1): failure handling.  Closed: count the
failure, then evaluate `readyToTrip` on the updated counters and trip to
Open if it returns true.  Half-Open: any probe failure returns to Open
immediately.  The returned flag records whether `ReadyToTrip` was
evaluated. -/
def Breaker.onFailure (now : ℕ) (b : Breaker) (m : Metrics) :
    (Breaker × Metrics) × Bool :=
  match b.state with
  | .closed =>
    let c := b.counts.onFailure
    let rtt := ReadyToTrip c m
    let b1 := { b with counts := c }
    (if rtt.1 then b1.setState .opened now rtt.2 else (b1, rtt.2), true)
  | .halfOpen => (b.setState .opened now m, false)
  | .opened => ((b, m), false)

/-- After an admitted call: apply the operation's outcome to the breaker
(modelled from the spec §4.1; the sequential model needs no generation
re-check). -/
def Breaker.finishCall (now : ℕ) (outcome : Except String ℕ) (b : Breaker)
    (m : Metrics) : ExecResult :=
  match outcome with
  | .ok v =>
    let s := b.onSuccess now m
    ⟨.ok v, true, false, s.1, s.2⟩
  | .error e =>
    let s := b.onFailure now m
    ⟨.error (.opFailure e), true, s.2, s.1.1, s.1.2⟩

/-- Modelled from the spec (§4.1 `Execute(operation)` contract), sequential
restriction: refresh the state at `now`, decide admission (Open rejects with
`circuitOpen`; Half-Open past the `MaxRequests` cap rejects with
`tooManyRequests`) without invoking the operation; otherwise count the
request, invoke the operation exactly once (its outcome is the `outcome`
argument), and apply the outcome to counters and transition rules. -/
def Breaker.execute (now : ℕ) (outcome : Except String ℕ) (b : Breaker)
    (m : Metrics) : ExecResult :=
  let s1 := b.currentState now m
  let b1 := s1.1
  let m1 := s1.2
  match b1.state with
  | .opened => ⟨.error .circuitOpen, false, false, b1, m1⟩
  | .halfOpen =>
    if MaxRequests ≤ b1.counts.requests then
      ⟨.error .tooManyRequests, false, false, b1, m1⟩
    else
      Breaker.finishCall now outcome { b1 with counts := b1.counts.onRequest } m1
  | .closed =>
      Breaker.finishCall now outcome { b1 with counts := b1.counts.onRequest } m1

/-! ## Retry loop of the `/api` handler (src/main.go)

The handler loop is

    for i := 0; i < attempts; i++ {
      result, err = cb.Execute(...)
      if err == nil { requestCount.WithLabelValues("success").Inc(); break }
      time.Sleep(exponentialBackoff(i))
    }

We embed it twice: `retryFrom` views one `Execute` call abstractly as its
returned value (a function of the loop index), isolating the loop's own
control flow; `runRetryFrom` composes the loop with the breaker model.  Both
are fuel-indexed structural recursions over the remaining iterations;
`attempts = 5` is the fuel at the top-level entry points. -/

/-- The local `attempts := 5` in the handler of src/main.go. -/
def attempts : ℕ := 5

/-- The retry loop with `Execute` results abstracted: `f i` is what
`cb.Execute` returns on loop index `i`.  `last` is the current value of the
Go `err`/`result` pair (zero value `.ok 0` before the first iteration).
Returns (final result, number of `Execute` calls, number of `time.Sleep`
calls). -/
def retryFrom (f : ℕ → Except ExecErr ℕ) (last : Except ExecErr ℕ) (i : ℕ) :
    ℕ → Except ExecErr ℕ × ℕ × ℕ
  | 0 => (last, 0, 0)
  | fuel + 1 =>
    match f i with
    | .ok v => (.ok v, 1, 0)
    | .error e =>
      let rest := retryFrom f (.error e) (i + 1) fuel
      (rest.1, rest.2.1 + 1, rest.2.2 + 1)

/-- The handler's retry loop (`attempts = 5`, starting at index 0 with the
zero-valued `result, err`). -/
def retryLoop (f : ℕ → Except ExecErr ℕ) : Except ExecErr ℕ × ℕ × ℕ :=
  retryFrom f (.ok 0) 0 attempts

/-- Aggregate outcome of a full handler run through the breaker model. -/
structure RunResult where
  result : Except ExecErr ℕ
  execs : ℕ
  sleeps : ℕ
  invoked : ℕ
  rttEvals : ℕ
  breaker : Breaker
  metrics : Metrics
deriving DecidableEq, Repr

/-- The retry loop composed with the breaker model.  `op k` is the outcome
the downstream operation produces on its `k`-th invocation (`ninv` counts
invocations so far; rejected calls do not advance it).  On success the loop
increments the Prometheus `"success"` counter and breaks, exactly as in
src/main.go; sleeps are counted, not timed (`now` is the request's time). -/
def runRetryFrom (op : ℕ → Except String ℕ) (now : ℕ)
    (last : Except ExecErr ℕ) (ninv : ℕ) (b : Breaker) (m : Metrics) :
    ℕ → RunResult
  | 0 => ⟨last, 0, 0, 0, 0, b, m⟩
  | fuel + 1 =>
    let er := Breaker.execute now (op ninv) b m
    let di := if er.invoked then 1 else 0
    let dr := if er.rttEval then 1 else 0
    match er.result with
    | .ok v =>
      ⟨.ok v, 1, 0, di, dr, er.breaker,
        { er.metrics with success := er.metrics.success + 1 }⟩
    | .error e =>
      let rest := runRetryFrom op now (.error e) (ninv + di) er.breaker
        er.metrics fuel
      ⟨rest.result, rest.execs + 1, rest.sleeps + 1, rest.invoked + di,
        rest.rttEvals + dr, rest.breaker, rest.metrics⟩

/-- The `/api` handler's transport response (status code and body). -/
structure Response where
  status : ℕ
  body : String
deriving DecidableEq, Repr

/-- The response mapping at the end of the `/api` handler in src/main.go:
`err != nil` ⇒ `http.Error(w, "Service Unavailable", 503)`; otherwise
`w.Write([]byte(fmt.Sprintf("Request succeeded: %v", result)))` with the
implicit 200 status. -/
def respond (r : Except ExecErr ℕ) : Response :=
  match r with
  | .ok v => ⟨200, "Request succeeded: " ++ toString v⟩
  | .error _ => ⟨503, "Service Unavailable"⟩

/-- The full `/api` handler from src/main.go: run the retry loop, then on a
final error increment the Prometheus `"failure"` counter and answer 503,
otherwise answer 200 with the result. -/
def handleRequest (op : ℕ → Except String ℕ) (now : ℕ) (b : Breaker)
    (m : Metrics) : Response × RunResult :=
  let run := runRetryFrom op now (.ok 0) 0 b m attempts
  match run.result with
  | .ok _ => (respond run.result, run)
  | .error _ =>
    (respond run.result,
      { run with metrics := { run.metrics with failure := run.metrics.failure + 1 } })

/-- The operation of end-to-end scenario C (spec §8): fails on its first two
invocations, succeeds from the third on (`200` models the HTTP status the
downstream call returns). -/
def opFailTwice (k : ℕ) : Except String ℕ :=
  if k < 2 then .error "simulated failure" else .ok 200

/-- The always-failing operation of the tests (`simulated failure`). -/
def opAlwaysFail (_ : ℕ) : Except String ℕ :=
  .error "simulated failure"

/-- Iterated failing `Execute` calls at time `now = 0` against a breaker,
used for the trip scenarios: feeds `n` consecutive failure outcomes. -/
def failTimes (b : Breaker) (m : Metrics) : ℕ → Breaker × Metrics
  | 0 => (b, m)
  | n + 1 =>
    let er := Breaker.execute 0 (.error "simulated failure") b m
    failTimes er.breaker er.metrics n

/-! ## Claim theorems -/

/-- C1: with `readyToTrip = consecutiveFailures > 3`, the predicate returns
true exactly when `ConsecutiveFailures` exceeds 3; feeding 1–3 consecutive
failures to a fresh breaker leaves it Closed, the 4th trips it to Open, and
a 5th call is rejected with the open-circuit failure without invoking the
operation (for every possible operation outcome). -/
theorem readyToTrip_trips_at_four_failures :
    (∀ c : Counts, ∀ m : Metrics,
      ((ReadyToTrip c m).1 = true ↔ 3 < c.consecutiveFailures)) ∧
    (failTimes (Breaker.construct 0) Metrics.zero 1).1.state = BState.closed ∧
    (failTimes (Breaker.construct 0) Metrics.zero 2).1.state = BState.closed ∧
    (failTimes (Breaker.construct 0) Metrics.zero 3).1.state = BState.closed ∧
    (failTimes (Breaker.construct 0) Metrics.zero 4).1.state = BState.opened ∧
    (∀ outcome : Except String ℕ,
      (Breaker.execute 0 outcome (failTimes (Breaker.construct 0) Metrics.zero 4).1
        (failTimes (Breaker.construct 0) Metrics.zero 4).2).result =
          .error .circuitOpen ∧
      (Breaker.execute 0 outcome (failTimes (Breaker.construct 0) Metrics.zero 4).1
        (failTimes (Breaker.construct 0) Metrics.zero 4).2).invoked = false) := by
  refine ⟨fun c m => ?_, by decide, by decide, by decide, by decide,
    fun outcome => ⟨rfl, rfl⟩⟩
  simp [ReadyToTrip]

/-- C9: evaluating `ReadyToTrip` is not pure: every evaluation increments the
Prometheus `"failure"` counter (and touches no other label) in addition to
returning the tripping decision `ConsecutiveFailures > 3`. -/
theorem readyToTrip_side_effect (c : Counts) (m : Metrics) :
    (ReadyToTrip c m).2.failure = m.failure + 1 ∧
    (ReadyToTrip c m).2.success = m.success ∧
    (ReadyToTrip c m).2.labelClosed = m.labelClosed ∧
    (ReadyToTrip c m).2.labelOpen = m.labelOpen ∧
    (ReadyToTrip c m).2.labelHalfOpen = m.labelHalfOpen ∧
    ((ReadyToTrip c m).1 = true ↔ 3 < c.consecutiveFailures) := by
  simp [ReadyToTrip]

/-- C7: the handler's response is determined by the orchestrator outcome via
`respond`: any success passes the result through in a 200 body, and any
unrecovered failure (circuit open, too many requests, or exhausted retries)
yields 503 "Service Unavailable" with no success body. -/
theorem handler_maps_outcomes (op : ℕ → Except String ℕ) (now : ℕ)
    (b : Breaker) (m : Metrics) :
    (handleRequest op now b m).1 = respond (handleRequest op now b m).2.result ∧
    (∀ v : ℕ, respond (.ok v) = ⟨200, "Request succeeded: " ++ toString v⟩) ∧
    (∀ e : ExecErr, respond (.error e) = ⟨503, "Service Unavailable"⟩) := by
  refine ⟨?_, fun v => rfl, fun e => rfl⟩
  unfold handleRequest
  rcases hr : (runRetryFrom op now (Except.ok 0) 0 b m attempts).result with v | e <;>
    simp [hr, respond]

/-- C6: end-to-end scenario C: with 5 maximum attempts against an operation
failing its first 2 invocations and succeeding on the 3rd, the handler
returns the success after exactly 3 `Execute` attempts with exactly 2
backoff sleeps between them. -/
theorem scenarioC_success_after_three_attempts :
    (handleRequest opFailTwice 0 (Breaker.construct 0) Metrics.zero).2.result
      = .ok 200 ∧
    (handleRequest opFailTwice 0 (Breaker.construct 0) Metrics.zero).2.execs = 3 ∧
    (handleRequest opFailTwice 0 (Breaker.construct 0) Metrics.zero).2.sleeps = 2 ∧
    (handleRequest opFailTwice 0 (Breaker.construct 0) Metrics.zero).2.invoked = 3 ∧
    (handleRequest opFailTwice 0 (Breaker.construct 0) Metrics.zero).1.status = 200 := by
  decide

/-- C5: every error returned by `Execute` — the operation's own failure or a
breaker rejection of either kind — consumes one attempt of the retry budget:
a loop whose 5 `Execute` calls all fail, with arbitrary error kinds, performs
exactly 5 `Execute` calls with sleeps in between; concretely, against a
breaker that is Open for the whole request, all 5 attempts are burned on
instant rejections and the operation is never invoked. -/
theorem every_error_consumes_attempt :
    (∀ e : ℕ → ExecErr,
      retryLoop (fun i => .error (e i)) = (.error (e 4), 5, 5)) ∧
    (handleRequest (fun _ => .ok 0) 0 ⟨.opened, Counts.clear, 1000⟩
      Metrics.zero).2.execs = 5 ∧
    (handleRequest (fun _ => .ok 0) 0 ⟨.opened, Counts.clear, 1000⟩
      Metrics.zero).2.invoked = 0 ∧
    (handleRequest (fun _ => .ok 0) 0 ⟨.opened, Counts.clear, 1000⟩
      Metrics.zero).2.result = .error .circuitOpen := by
  refine ⟨fun e => rfl, by decide, by decide, by decide⟩

/-- The loop makes at most `fuel` `Execute` calls. -/
theorem retryFrom_execs_le (f : ℕ → Except ExecErr ℕ) (last : Except ExecErr ℕ)
    (i fuel : ℕ) : (retryFrom f last i fuel).2.1 ≤ fuel := by
  induction fuel generalizing last i with
  | zero => simp [retryFrom]
  | succ n ih =>
    rw [retryFrom]
    cases hf : f i with
    | ok v => simp
    | error e =>
      simpa using Nat.succ_le_succ (ih (.error e) (i + 1))

/-- If the `k`-th call (relative to start index `i`) is the first success,
the loop stops there: `k+1` `Execute` calls, `k` sleeps, returning it. -/
theorem retryFrom_first_success (f : ℕ → Except ExecErr ℕ) (v k : ℕ) :
    ∀ (i fuel : ℕ) (last : Except ExecErr ℕ), k < fuel →
    f (i + k) = .ok v → (∀ j, j < k → ∃ e, f (i + j) = .error e) →
    retryFrom f last i fuel = (.ok v, k + 1, k) := by
  induction k with
  | zero =>
    intro i fuel last hk hok _
    obtain ⟨n, rfl⟩ : ∃ n, fuel = n + 1 := ⟨fuel - 1, by omega⟩
    rw [retryFrom]
    rw [Nat.add_zero] at hok
    simp [hok]
  | succ k ih =>
    intro i fuel last hk hok hfail
    obtain ⟨n, rfl⟩ : ∃ n, fuel = n + 1 := ⟨fuel - 1, by omega⟩
    obtain ⟨e, he⟩ := hfail 0 (Nat.succ_pos k)
    rw [Nat.add_zero] at he
    rw [retryFrom, he]
    have hrec := ih (i + 1) n (.error e) (by omega)
      (by rw [show i + 1 + k = i + (k + 1) by omega]; exact hok)
      (fun j hj => by
        rw [show i + 1 + j = i + (j + 1) by omega]
        exact hfail (j + 1) (by omega))
    simp [hrec]

/-- C2: the retry loop calls `Execute` at most `attempts = 5` times, and on
the first successful attempt (index `k`, all earlier attempts failing) it
stops and returns that success immediately: exactly `k+1` `Execute` calls
and `k` sleeps — no further calls and no sleep after the success. -/
theorem retry_returns_first_success (f : ℕ → Except ExecErr ℕ) (k v : ℕ)
    (hk : k < attempts) (hok : f k = .ok v)
    (hfail : ∀ j, j < k → ∃ e, f j = .error e) :
    retryLoop f = (.ok v, k + 1, k) ∧
    (∀ g : ℕ → Except ExecErr ℕ, (retryLoop g).2.1 ≤ attempts) := by
  refine ⟨?_, fun g => retryFrom_execs_le g (.ok 0) 0 attempts⟩
  have := retryFrom_first_success f v k 0 attempts (.ok 0) hk
    (by simpa using hok) (fun j hj => by simpa using hfail j hj)
  simpa [retryLoop] using this

/-- C2 witness: two rejections then a success at index 2 stop the loop after
3 `Execute` calls and 2 sleeps. -/
theorem retry_returns_first_success_witness :
    retryLoop (fun i => if i < 2 then .error .circuitOpen else .ok 7)
      = (.ok 7, 3, 2) ∧
    (∀ g : ℕ → Except ExecErr ℕ, (retryLoop g).2.1 ≤ attempts) :=
  retry_returns_first_success (fun i => if i < 2 then .error .circuitOpen else .ok 7)
    2 7 (by decide) rfl (fun j hj => ⟨.circuitOpen, if_pos hj⟩)

/-- C3 counterexample: the claim says a failing last (5th) attempt returns
without sleeping first, i.e. an all-failing run would sleep only 4 times;
the loop in src/main.go sleeps unconditionally after every failure, so an
all-failing run performs 5 sleeps, not `attempts - 1 = 4`. -/
theorem retry_sleeps_after_last_failure_cex :
    (retryLoop (fun _ => .error (.opFailure "simulated failure"))).2.2 = 5 ∧
    ¬ (retryLoop (fun _ => .error (.opFailure "simulated failure"))).2.2
        = attempts - 1 := by
  constructor <;> decide

/-- Sleep accounting of the loop, started with a failed `last`: the sleep
count equals the `Execute` count minus one exactly when the final result is
a success, and a success implies at least one `Execute` call happened. -/
theorem retryFrom_sleep_count (f : ℕ → Except ExecErr ℕ) :
    ∀ (fuel i : ℕ) (e0 : ExecErr),
    (retryFrom f (.error e0) i fuel).2.2 =
      (retryFrom f (.error e0) i fuel).2.1 -
        (if (retryFrom f (.error e0) i fuel).1.isOk then 1 else 0) ∧
    ((retryFrom f (.error e0) i fuel).1.isOk = true →
      1 ≤ (retryFrom f (.error e0) i fuel).2.1) := by
  intro fuel
  induction fuel with
  | zero => intro i e0; simp [retryFrom, Except.isOk, Except.toBool]
  | succ n ih =>
    intro i e0
    rw [retryFrom]
    cases hf : f i with
    | ok v => simp [Except.isOk, Except.toBool]
    | error e =>
      obtain ⟨h1, h2⟩ := ih (i + 1) e
      simp only []
      constructor
      · rcases hok : (retryFrom f (.error e) (i + 1) n).1.isOk with _ | _
        · simp only [hok] at h1; simp [hok, h1]
        · have h3 := h2 hok
          simp [hok] at h1 ⊢
          omega
      · intro _; omega

/-- C3 amended: a backoff sleep occurs after every failed attempt,
including the last one: when all `attempts = 5` calls fail, the loop
performs 5 `Execute` calls and 5 sleeps and returns the 5th (last) failure
— the final failure is returned only after a final sleep.  In general the
sleep count is the `Execute` count minus one exactly on success (no sleep
after a success), and equal to it on failure. -/
theorem retry_sleeps_after_every_failure (f : ℕ → Except ExecErr ℕ)
    (hfail : ∀ j, j < attempts → ∃ e, f j = .error e) :
    retryLoop f = (f 4, attempts, attempts) ∧
    (∀ g : ℕ → Except ExecErr ℕ,
      (retryLoop g).2.2 = (retryLoop g).2.1 -
        (if (retryLoop g).1.isOk then 1 else 0)) := by
  constructor
  · obtain ⟨e0, h0⟩ := hfail 0 (by decide)
    obtain ⟨e1, h1⟩ := hfail 1 (by decide)
    obtain ⟨e2, h2⟩ := hfail 2 (by decide)
    obtain ⟨e3, h3⟩ := hfail 3 (by decide)
    obtain ⟨e4, h4⟩ := hfail 4 (by decide)
    rw [h4]
    simp [retryLoop, attempts, retryFrom, h0, h1, h2, h3, h4]
  · intro g
    unfold retryLoop
    rw [show attempts = 4 + 1 from rfl, retryFrom]
    cases hg : g 0 with
    | ok v => simp [Except.isOk, Except.toBool]
    | error e =>
      obtain ⟨h1, h2⟩ := retryFrom_sleep_count g 4 1 e
      simp only []
      rcases hok : (retryFrom g (.error e) 1 4).1.isOk with _ | _
      · simp only [hok] at h1; simp [hok, h1]
      · have h3 := h2 hok
        simp [hok] at h1 ⊢
        omega

/-- C3 amended witness: the always-open-circuit run sleeps 5 times. -/
theorem retry_sleeps_after_every_failure_witness :
    retryLoop (fun _ => .error .circuitOpen)
      = ((fun _ : ℕ => Except.error (α := ℕ) ExecErr.circuitOpen) 4,
         attempts, attempts) ∧
    (∀ g : ℕ → Except ExecErr ℕ,
      (retryLoop g).2.2 = (retryLoop g).2.1 -
        (if (retryLoop g).1.isOk then 1 else 0)) :=
  retry_sleeps_after_every_failure (fun _ => .error .circuitOpen)
    (fun _ _ => ⟨.circuitOpen, rfl⟩)

/-- Callback `OnStateChange` touches only the state-name labels, never the
`"success"`/`"failure"` outcome labels. -/
theorem OnStateChange_outcome_counts (tgt : BState) (m : Metrics) :
    (OnStateChange tgt m).success = m.success ∧
    (OnStateChange tgt m).failure = m.failure := by
  cases tgt <;> simp [OnStateChange]

/-- State transitions leave the outcome labels unchanged. -/
theorem setState_outcome_counts (tgt : BState) (now : ℕ) (b : Breaker)
    (m : Metrics) :
    (b.setState tgt now m).2.success = m.success ∧
    (b.setState tgt now m).2.failure = m.failure := by
  unfold Breaker.setState
  split
  · exact ⟨rfl, rfl⟩
  · exact OnStateChange_outcome_counts tgt m

/-- Lazy state refresh leaves the outcome labels unchanged. -/
theorem currentState_outcome_counts (now : ℕ) (b : Breaker) (m : Metrics) :
    (b.currentState now m).2.success = m.success ∧
    (b.currentState now m).2.failure = m.failure := by
  unfold Breaker.currentState
  rcases hb : b.state with _ | _ | _ <;> simp only [hb]
  · split <;> constructor <;> trivial
  · split
    · exact setState_outcome_counts .halfOpen now b m
    · constructor <;> trivial
  · constructor <;> trivial

/-- Success handling leaves the outcome labels unchanged. -/
theorem onSuccess_outcome_counts (now : ℕ) (b : Breaker) (m : Metrics) :
    (b.onSuccess now m).2.success = m.success ∧
    (b.onSuccess now m).2.failure = m.failure := by
  unfold Breaker.onSuccess
  rcases hb : b.state with _ | _ | _ <;> simp only [hb]
  · constructor <;> trivial
  · constructor <;> trivial
  · split
    · exact setState_outcome_counts .closed now _ m
    · constructor <;> trivial

/-- Failure handling preserves the `"success"` label and increments the
`"failure"` label exactly when `ReadyToTrip` was evaluated (i.e. on a
counted failure in the Closed state). -/
theorem onFailure_outcome_counts (now : ℕ) (b : Breaker) (m : Metrics) :
    (b.onFailure now m).1.2.success = m.success ∧
    (b.onFailure now m).1.2.failure =
      m.failure + (if (b.onFailure now m).2 then 1 else 0) := by
  unfold Breaker.onFailure
  rcases hb : b.state with _ | _ | _ <;> simp only [hb]
  · constructor
    · split
      · exact ((setState_outcome_counts _ _ _ _).1).trans rfl
      · rfl
    · split
      · exact ((setState_outcome_counts _ _ _ _).2).trans (by simp [ReadyToTrip])
      · simp [ReadyToTrip]
  · simp
  · constructor
    · exact (setState_outcome_counts _ _ _ _).1
    · exact ((setState_outcome_counts _ _ _ _).2).trans (by simp)

/-- Outcome application after an admitted call preserves the `"success"`
label and increments the `"failure"` label exactly on a `ReadyToTrip`
evaluation. -/
theorem finishCall_outcome_counts (now : ℕ) (outcome : Except String ℕ)
    (b : Breaker) (m : Metrics) :
    (Breaker.finishCall now outcome b m).metrics.success = m.success ∧
    (Breaker.finishCall now outcome b m).metrics.failure =
      m.failure + (if (Breaker.finishCall now outcome b m).rttEval then 1 else 0) := by
  unfold Breaker.finishCall
  cases outcome with
  | ok v =>
    obtain ⟨h1, h2⟩ := onSuccess_outcome_counts now b m
    exact ⟨h1, by simpa using h2⟩
  | error e =>
    exact onFailure_outcome_counts now b m

/-- One `Execute` call preserves the `"success"` label and increments the
`"failure"` label exactly when it evaluated `ReadyToTrip`; in particular a
rejected call (Open, or Half-Open over the cap) records no outcome event. -/
theorem execute_outcome_counts (now : ℕ) (outcome : Except String ℕ)
    (b : Breaker) (m : Metrics) :
    (Breaker.execute now outcome b m).metrics.success = m.success ∧
    (Breaker.execute now outcome b m).metrics.failure =
      m.failure + (if (Breaker.execute now outcome b m).rttEval then 1 else 0) := by
  unfold Breaker.execute
  obtain ⟨hcs, hcf⟩ := currentState_outcome_counts now b m
  rcases hb : (b.currentState now m).1.state with _ | _ | _ <;> simp only [hb]
  · constructor
    · exact ((finishCall_outcome_counts _ _ _ _).1).trans hcs
    · exact ((finishCall_outcome_counts _ _ _ _).2).trans (by rw [hcf])
  · exact ⟨hcs, by simp [hcf]⟩
  · split
    · exact ⟨hcs, by simp [hcf]⟩
    · constructor
      · exact ((finishCall_outcome_counts _ _ _ _).1).trans hcs
      · exact ((finishCall_outcome_counts _ _ _ _).2).trans (by rw [hcf])

/-- Loop-level outcome-counter accounting, for a loop whose pending `last`
value is a failure: over the whole run the `"success"` label rises by one
exactly when the loop ends in a success, and the `"failure"` label rises by
exactly the number of `ReadyToTrip` evaluations — not by the number of
failed attempts. -/
theorem runRetryFrom_outcome_counts (op : ℕ → Except String ℕ) (now : ℕ) :
    ∀ (fuel : ℕ) (e0 : ExecErr) (ninv : ℕ) (b : Breaker) (m : Metrics),
    (runRetryFrom op now (.error e0) ninv b m fuel).metrics.success =
      m.success +
        (if (runRetryFrom op now (.error e0) ninv b m fuel).result.isOk
          then 1 else 0) ∧
    (runRetryFrom op now (.error e0) ninv b m fuel).metrics.failure =
      m.failure + (runRetryFrom op now (.error e0) ninv b m fuel).rttEvals := by
  intro fuel
  induction fuel with
  | zero =>
    intro e0 ninv b m
    simp [runRetryFrom, Except.isOk, Except.toBool]
  | succ n ih =>
    intro e0 ninv b m
    rw [runRetryFrom]
    obtain ⟨hs, hf⟩ := execute_outcome_counts now (op ninv) b m
    rcases hr : (Breaker.execute now (op ninv) b m).result with e | v <;>
      simp only [hr]
    · obtain ⟨ihs, ihf⟩ := ih e
        (ninv + if (Breaker.execute now (op ninv) b m).invoked then 1 else 0)
        (Breaker.execute now (op ninv) b m).breaker
        (Breaker.execute now (op ninv) b m).metrics
      constructor
      · rw [ihs, hs]
      · rw [ihf, hf]
        omega
    · simp [Except.isOk, Except.toBool, hs, hf]

/-- C8 counterexample: a request served while the breaker is already Open
(`expiry` not yet reached) completes 5 `Execute` attempts, all failed
(instant rejections, operation never invoked), yet only ONE
failure-tagged counter increment is recorded (the post-loop one in the
handler) — not one per completed attempt, so the requests-by-outcome
counter does not equal the number of completed failed attempts. -/
theorem outcome_event_not_per_attempt_cex :
    (handleRequest opAlwaysFail 0 ⟨.opened, Counts.clear, 1000⟩
      Metrics.zero).2.execs = 5 ∧
    (handleRequest opAlwaysFail 0 ⟨.opened, Counts.clear, 1000⟩
      Metrics.zero).2.result = .error .circuitOpen ∧
    (handleRequest opAlwaysFail 0 ⟨.opened, Counts.clear, 1000⟩
      Metrics.zero).2.invoked = 0 ∧
    (handleRequest opAlwaysFail 0 ⟨.opened, Counts.clear, 1000⟩
      Metrics.zero).2.metrics.failure = 1 ∧
    (handleRequest opAlwaysFail 0 ⟨.opened, Counts.clear, 1000⟩
      Metrics.zero).2.metrics.success = 0 ∧
    ¬ (handleRequest opAlwaysFail 0 ⟨.opened, Counts.clear, 1000⟩
      Metrics.zero).2.metrics.failure =
      (handleRequest opAlwaysFail 0 ⟨.opened, Counts.clear, 1000⟩
        Metrics.zero).2.execs := by
  decide

/-- C8 amended: outcome counter increments are not one-per-attempt.  Over a
whole handler run, the `"success"` label rises by one exactly when the
retry loop ends in success (once per loop, not per attempt), and the
`"failure"` label rises by the number of `ReadyToTrip` evaluations (one per
failure counted by the breaker while Closed) plus one more when the request
ends unrecovered; rejected attempts record no outcome event at all. -/
theorem outcome_counters_per_loop (op : ℕ → Except String ℕ) (now : ℕ)
    (b : Breaker) (m : Metrics) :
    (handleRequest op now b m).2.metrics.success =
      m.success +
        (if (handleRequest op now b m).2.result.isOk then 1 else 0) ∧
    (handleRequest op now b m).2.metrics.failure =
      m.failure + (handleRequest op now b m).2.rttEvals +
        (if (handleRequest op now b m).2.result.isOk then 0 else 1) := by
  have hloop :
      (runRetryFrom op now (.ok 0) 0 b m attempts).metrics.success =
        m.success +
          (if (runRetryFrom op now (.ok 0) 0 b m attempts).result.isOk
            then 1 else 0) ∧
      (runRetryFrom op now (.ok 0) 0 b m attempts).metrics.failure =
        m.failure + (runRetryFrom op now (.ok 0) 0 b m attempts).rttEvals := by
    rw [show attempts = 4 + 1 from rfl, runRetryFrom]
    obtain ⟨hs, hf⟩ := execute_outcome_counts now (op 0) b m
    rcases hr : (Breaker.execute now (op 0) b m).result with e | v <;>
      simp only [hr]
    · obtain ⟨ihs, ihf⟩ := runRetryFrom_outcome_counts op now 4 e
        (0 + if (Breaker.execute now (op 0) b m).invoked then 1 else 0)
        (Breaker.execute now (op 0) b m).breaker
        (Breaker.execute now (op 0) b m).metrics
      exact ⟨by rw [ihs, hs], by rw [ihf, hf]; omega⟩
    · simp [Except.isOk, Except.toBool, hs, hf]
  obtain ⟨hls, hlf⟩ := hloop
  unfold handleRequest
  rcases hr : (runRetryFrom op now (.ok 0) 0 b m attempts).result with e | v <;>
    simp only [hr] <;>
    simp [Except.isOk, Except.toBool, hr] at hls hlf ⊢ <;>
    omega
